import Mathlib

/-!
# Workforce planning MILP — verification of the specification

Shallow embedding of `src/Workforce.py` (`solve_workforce_planning`).

The source builds a PuLP model: integer decision variables `H, F, E, O, U`
(hired, fired, employees, overtime, unmet demand) for each month, linear
constraints (headcount balance, demand coverage, hiring/firing caps,
overtime cap, shortfall bound, budget), a linear cost objective, a solve
call to CBC, and a result dictionary built from the solver's variable
values via `safe_value` (None defaults to 0).

The solver itself is external; it is modelled as an oracle response
(`SolverOutput`): a categorical status plus an optional value per
variable.  The constraint system, the objective and the result extraction
are embedded directly from the source.  Rational numbers stand for
Python's reals; the fact that the extraction crashes with a `TypeError`
when `problem.objective.value()` is `None` is modelled by `Option`:
`solve_workforce_planning` returns `none` exactly in that case.
-/

namespace Workforce

/-- The parameters of `solve_workforce_planning` (src/Workforce.py:6-8).
`months, maxh, maxf, initial_employees` arrive as integers from the UI;
costs, rates and demand are real-valued and modelled as rationals. -/
structure Params where
  months : ℕ
  hiring_cost : ℚ
  firing_cost : ℚ
  effective_salary_cost : ℚ
  penalty_cost : ℚ
  overtime_cost : ℚ
  initial_employees : ℤ
  maxh : ℤ
  maxf : ℤ
  overtime_rate : ℚ
  working_hours : ℚ
  demand : List ℚ
  budget : ℚ
  service_rate : ℚ
deriving DecidableEq

/-- An assignment of values to the integer decision variables
`H_i, F_i, E_i, O_i, U_i` (src/Workforce.py:17-21).  All five families
are declared with `cat='Integer'`, hence `ℤ`-valued; the `lowBound=0`
domain restriction is the separate predicate `nonnegOk`. -/
structure Assignment where
  H : ℕ → ℤ
  F : ℕ → ℤ
  E : ℕ → ℤ
  O : ℕ → ℤ
  U : ℕ → ℤ

/-- `demand[i]` — the source indexes the demand list directly; every claim
concerns runs where `demand` has length `months`, so the total `getD`
agrees with Python's indexing there. -/
def demandAt (p : Params) (i : ℕ) : ℚ :=
  p.demand.getD i 0

/-- `lowBound=0` on every variable (src/Workforce.py:17-21). -/
def nonnegOk (p : Params) (a : Assignment) : Prop :=
  ∀ i < p.months, 0 ≤ a.H i ∧ 0 ≤ a.F i ∧ 0 ≤ a.E i ∧ 0 ≤ a.O i ∧ 0 ≤ a.U i

/-- Headcount balance (src/Workforce.py:33-36): the first month uses
`initial_employees`, later months chain on the previous month. -/
def balanceOk (p : Params) (a : Assignment) : Prop :=
  ∀ i < p.months,
    if i = 0 then a.E 0 = p.initial_employees + a.H 0 - a.F 0
    else a.E i = a.E (i - 1) + a.H i - a.F i

/-- The demand-coverage (service) constraint for month `i`
(src/Workforce.py:39): `E[i]*working_hours + O[i] + U[i] >= demand[i]*service_rate`. -/
def coverC (p : Params) (a : Assignment) (i : ℕ) : Prop :=
  (a.E i : ℚ) * p.working_hours + (a.O i : ℚ) + (a.U i : ℚ) ≥ demandAt p i * p.service_rate

/-- The shortfall bound for month `i` (src/Workforce.py:49):
`U[i] >= demand[i] - (E[i]*working_hours + O[i])`, with raw demand. -/
def unmetC (p : Params) (a : Assignment) (i : ℕ) : Prop :=
  (a.U i : ℚ) ≥ demandAt p i - ((a.E i : ℚ) * p.working_hours + (a.O i : ℚ))

/-- All service constraints (src/Workforce.py:39). -/
def coverOk (p : Params) (a : Assignment) : Prop :=
  ∀ i < p.months, coverC p a i

/-- All shortfall bounds (src/Workforce.py:49). -/
def unmetOk (p : Params) (a : Assignment) : Prop :=
  ∀ i < p.months, unmetC p a i

/-- Hiring caps (src/Workforce.py:42). -/
def hireCapOk (p : Params) (a : Assignment) : Prop :=
  ∀ i < p.months, a.H i ≤ p.maxh

/-- Firing caps (src/Workforce.py:43). -/
def fireCapOk (p : Params) (a : Assignment) : Prop :=
  ∀ i < p.months, a.F i ≤ p.maxf

/-- Overtime caps (src/Workforce.py:46): `O[i] <= E[i]*overtime_rate`. -/
def overtimeOk (p : Params) (a : Assignment) : Prop :=
  ∀ i < p.months, (a.O i : ℚ) ≤ (a.E i : ℚ) * p.overtime_rate

/-- The budgeted total cost (src/Workforce.py:52-55): hiring, firing,
salary and overtime — the penalty term does not appear. -/
def budgetCost (p : Params) (a : Assignment) : ℚ :=
  ∑ i ∈ Finset.range p.months,
    ((a.H i : ℚ) * p.hiring_cost + (a.F i : ℚ) * p.firing_cost +
     (a.E i : ℚ) * p.effective_salary_cost + (a.O i : ℚ) * p.overtime_cost)

/-- The budget constraint (src/Workforce.py:56). -/
def budgetOk (p : Params) (a : Assignment) : Prop :=
  budgetCost p a ≤ p.budget

/-- The objective `Total_Cost` (src/Workforce.py:24-28): hiring, firing,
salary, overtime and penalty terms summed over all months. -/
def objective (p : Params) (a : Assignment) : ℚ :=
  ∑ i ∈ Finset.range p.months,
    ((a.H i : ℚ) * p.hiring_cost + (a.F i : ℚ) * p.firing_cost +
     (a.E i : ℚ) * p.effective_salary_cost + (a.O i : ℚ) * p.overtime_cost +
     (a.U i : ℚ) * p.penalty_cost)

/-- The full constraint system of the constructed model: variable domains
plus every posted constraint (src/Workforce.py:17-56). -/
def feasible (p : Params) (a : Assignment) : Prop :=
  nonnegOk p a ∧ balanceOk p a ∧ coverOk p a ∧ hireCapOk p a ∧
    fireCapOk p a ∧ overtimeOk p a ∧ unmetOk p a ∧ budgetOk p a

/-- An optimal solution of the `LpMinimize` problem: feasible, and of
minimal objective among feasible assignments (src/Workforce.py:13,24). -/
def isOptimal (p : Params) (a : Assignment) : Prop :=
  feasible p a ∧ ∀ b : Assignment, feasible p b → objective p a ≤ objective p b

/-- The categorical outcomes a PuLP solve can report (`pulp.LpStatus`
has exactly these five entries). -/
inductive SolverStatus where
  | notSolved
  | optimal
  | infeasible
  | unbounded
  | undefined
deriving DecidableEq

/-- The `LpStatus` dictionary (src/Workforce.py:69): the status string
reported verbatim from the solver's categorical outcome. -/
def LpStatus : SolverStatus → String
  | .notSolved => "Not Solved"
  | .optimal => "Optimal"
  | .infeasible => "Infeasible"
  | .unbounded => "Unbounded"
  | .undefined => "Undefined"

/-- What the external CBC solve call hands back (src/Workforce.py:59):
a status, and per decision variable an optional value (`var.value()`
is `None` when the solver assigned no value). -/
structure SolverOutput where
  status : SolverStatus
  Hval : ℕ → Option ℚ
  Fval : ℕ → Option ℚ
  Eval : ℕ → Option ℚ
  Oval : ℕ → Option ℚ
  Uval : ℕ → Option ℚ

/-- `safe_value` (src/Workforce.py:62-63): a variable's value, defaulting
to 0 when the solver assigned none. -/
def safe_value (v : Option ℚ) : ℚ :=
  v.getD 0

/-- Whether every decision variable occurring in the objective expression
has an assigned value.  PuLP drops terms multiplied by the scalar 0 when
the expression is built, so a variable occurs in the objective only when
its cost coefficient is non-zero; `problem.objective.value()` returns
`None` exactly when one of the occurring variables has `varValue is None`. -/
def objectiveDefined (p : Params) (out : SolverOutput) : Prop :=
  ∀ i < p.months,
    (p.hiring_cost ≠ 0 → (out.Hval i).isSome = true) ∧
    (p.firing_cost ≠ 0 → (out.Fval i).isSome = true) ∧
    (p.effective_salary_cost ≠ 0 → (out.Eval i).isSome = true) ∧
    (p.overtime_cost ≠ 0 → (out.Oval i).isSome = true) ∧
    (p.penalty_cost ≠ 0 → (out.Uval i).isSome = true)

instance (p : Params) (out : SolverOutput) : Decidable (objectiveDefined p out) := by
  unfold objectiveDefined; infer_instance

/-- `problem.objective.value()` at line 70: the objective expression
evaluated at the solver's variable values, or `none` when a variable
occurring in it is unassigned.  A family whose cost coefficient is zero
was dropped at construction and contributes nothing, which the
`getD 0 * 0` term reproduces whether or not it is assigned. -/
def objectiveValue (p : Params) (out : SolverOutput) : Option ℚ :=
  if objectiveDefined p out then
    some (∑ i ∈ Finset.range p.months,
      ((out.Hval i).getD 0 * p.hiring_cost + (out.Fval i).getD 0 * p.firing_cost +
       (out.Eval i).getD 0 * p.effective_salary_cost + (out.Oval i).getD 0 * p.overtime_cost +
       (out.Uval i).getD 0 * p.penalty_cost))
  else none

/-- `objective_penalty` (src/Workforce.py:66): the realized penalty
component, computed from the null-defaulted (`safe_value`) values. -/
def objectivePenalty (p : Params) (out : SolverOutput) : ℚ :=
  ∑ i ∈ Finset.range p.months, safe_value (out.Uval i) * p.penalty_cost

/-- One entry of the result's `Details` list (src/Workforce.py:75-83). -/
structure PeriodDetail where
  month : ℕ
  demandHours : ℚ
  hired : ℚ
  fired : ℚ
  employees : ℚ
  overtime : ℚ
  unmetDemand : ℚ
deriving DecidableEq

/-- The `results` dictionary (src/Workforce.py:68-72). -/
structure SolveResult where
  status : String
  totalCost : ℚ
  details : List PeriodDetail
deriving DecidableEq

/-- The post-solve extraction of `solve_workforce_planning`
(src/Workforce.py:59-85), parameterised by the solver's response.

`"Total Cost"` is `problem.objective.value() - objective_penalty`: when
the objective value is `None` (some variable unassigned) the subtraction
raises a `TypeError` and no result dictionary is ever built — that
failure is `none` here.  Otherwise the `Details` list holds, per month,
the month number `i+1`, the input demand, and the five `safe_value`d
variable values. -/
def solve_workforce_planning (p : Params) (out : SolverOutput) : Option SolveResult :=
  match objectiveValue p out with
  | none => none
  | some obj =>
    some
      { status := LpStatus out.status
        totalCost := obj - objectivePenalty p out
        details :=
          (List.range p.months).map fun i =>
            { month := i + 1
              demandHours := demandAt p i
              hired := safe_value (out.Hval i)
              fired := safe_value (out.Fval i)
              employees := safe_value (out.Eval i)
              overtime := safe_value (out.Oval i)
              unmetDemand := safe_value (out.Uval i) } }

instance (p : Params) (a : Assignment) : Decidable (nonnegOk p a) := by
  unfold nonnegOk; infer_instance

instance (p : Params) (a : Assignment) : Decidable (balanceOk p a) := by
  unfold balanceOk; infer_instance

instance (p : Params) (a : Assignment) (i : ℕ) : Decidable (coverC p a i) := by
  unfold coverC; infer_instance

instance (p : Params) (a : Assignment) (i : ℕ) : Decidable (unmetC p a i) := by
  unfold unmetC; infer_instance

instance (p : Params) (a : Assignment) : Decidable (coverOk p a) := by
  unfold coverOk; infer_instance

instance (p : Params) (a : Assignment) : Decidable (unmetOk p a) := by
  unfold unmetOk; infer_instance

instance (p : Params) (a : Assignment) : Decidable (hireCapOk p a) := by
  unfold hireCapOk; infer_instance

instance (p : Params) (a : Assignment) : Decidable (fireCapOk p a) := by
  unfold fireCapOk; infer_instance

instance (p : Params) (a : Assignment) : Decidable (overtimeOk p a) := by
  unfold overtimeOk; infer_instance

instance (p : Params) (a : Assignment) : Decidable (budgetOk p a) := by
  unfold budgetOk; infer_instance

instance (p : Params) (a : Assignment) : Decidable (feasible p a) := by
  unfold feasible; infer_instance

/-- A parameter record with one month, zero demand and zero costs; used
as a concrete evaluation point. -/
def zeroParams : Params :=
  { months := 1, hiring_cost := 0, firing_cost := 0, effective_salary_cost := 0,
    penalty_cost := 0, overtime_cost := 0, initial_employees := 0, maxh := 0,
    maxf := 0, overtime_rate := 0, working_hours := 0, demand := [0],
    budget := 0, service_rate := 0 }

/-- The all-zero assignment. -/
def zeroAsg : Assignment :=
  { H := fun _ => 0, F := fun _ => 0, E := fun _ => 0, O := fun _ => 0, U := fun _ => 0 }

/-- A solver response assigning 0 to every variable and reporting an
optimal outcome. -/
def zeroOut : SolverOutput :=
  { status := .optimal, Hval := fun _ => some 0, Fval := fun _ => some 0,
    Eval := fun _ => some 0, Oval := fun _ => some 0, Uval := fun _ => some 0 }

/-- A solver response that assigned no value to any variable (as when the
solve is aborted early). -/
def noneOut : SolverOutput :=
  { status := .undefined, Hval := fun _ => none, Fval := fun _ => none,
    Eval := fun _ => none, Oval := fun _ => none, Uval := fun _ => none }

/-- A one-month parameter record with the UI's default costs, all
non-zero, so every decision variable occurs in the objective. -/
def defaultParams : Params :=
  { months := 1, hiring_cost := 1000, firing_cost := 1000,
    effective_salary_cost := 1000, penalty_cost := 100, overtime_cost := 75,
    initial_employees := 10, maxh := 10, maxf := 5, overtime_rate := 10,
    working_hours := 166, demand := [1660], budget := 1660000, service_rate := 1 }

/-- The result built from `zeroParams` and the all-zero solver response. -/
def zeroResult : SolveResult :=
  { status := "Optimal", totalCost := 0,
    details := [{ month := 1, demandHours := 0, hired := 0, fired := 0,
                  employees := 0, overtime := 0, unmetDemand := 0 }] }

/-- A parameter record violating the spec's preconditions: the hiring
cost is negative. -/
def invalidParams : Params :=
  { months := 1, hiring_cost := -1, firing_cost := 0, effective_salary_cost := 0,
    penalty_cost := 0, overtime_cost := 0, initial_employees := 0, maxh := 0,
    maxf := 0, overtime_rate := 0, working_hours := 0, demand := [0],
    budget := 0, service_rate := 0 }

/-- The Scenario B parameter set: one month, ten initial employees,
demand 1660 hours, 166 working hours per employee, full service rate, no
hiring or firing allowed, zero budget; costs are arbitrary. -/
def scenarioB (hc fc sc oc pc orate : ℚ) : Params :=
  { months := 1, hiring_cost := hc, firing_cost := fc, effective_salary_cost := sc,
    penalty_cost := pc, overtime_cost := oc, initial_employees := 10, maxh := 0,
    maxf := 0, overtime_rate := orate, working_hours := 166, demand := [1660],
    budget := 0, service_rate := 1 }

/-- The all-zero assignment satisfies every constraint of the all-zero
one-month model; shared evaluation lemma for witnesses. -/
theorem zero_feasible : feasible zeroParams zeroAsg := by
  refine ⟨?_, ?_, ?_, ?_, ?_, ?_, ?_, ?_⟩ <;>
    simp [nonnegOk, balanceOk, coverOk, unmetOk, hireCapOk, fireCapOk, overtimeOk,
      budgetOk, coverC, unmetC, budgetCost, demandAt, zeroParams, zeroAsg,
      Nat.lt_one_iff]

/-- C1: for every period `i` in `[0, months)`, the constructed model imposes
both coverage constraints simultaneously — the service constraint
`E[i]*working_hours + O[i] + U[i] ≥ demand[i]*service_rate` and the
shortfall bound `U[i] ≥ demand[i] - (E[i]*working_hours + O[i])` with raw
demand on the right-hand side; any feasible assignment satisfies both. -/
theorem C1_both_coverage_constraints (p : Params) (a : Assignment)
    (h : feasible p a) :
    ∀ i < p.months, coverC p a i ∧ unmetC p a i := by
  obtain ⟨-, -, hcov, -, -, -, hun, -⟩ := h
  exact fun i hi => ⟨hcov i hi, hun i hi⟩

theorem C1_witness :
    coverC zeroParams zeroAsg 0 ∧ unmetC zeroParams zeroAsg 0 :=
  C1_both_coverage_constraints zeroParams zeroAsg zero_feasible 0 Nat.zero_lt_one

/-- C2: in every assignment satisfying the model's variable domains and
balance constraints, `E[i]` is non-negative and equals the telescoped sum
`initial_employees + Σ_{k ≤ i} (H[k] - F[k])` for every period `i`. -/
theorem C2_balance_telescoped (p : Params) (a : Assignment)
    (hn : nonnegOk p a) (hb : balanceOk p a) :
    ∀ i < p.months,
      0 ≤ a.E i ∧
      a.E i = p.initial_employees + ∑ k ∈ Finset.range (i + 1), (a.H k - a.F k) := by
  have key : ∀ i, i < p.months →
      a.E i = p.initial_employees + ∑ k ∈ Finset.range (i + 1), (a.H k - a.F k) := by
    intro i
    induction i with
    | zero =>
      intro hi
      have h0 := hb 0 hi
      rw [if_pos rfl] at h0
      rw [Finset.sum_range_one, h0]
      ring
    | succ n ih =>
      intro hi
      have hlt : n < p.months := Nat.lt_of_succ_lt hi
      have hstep := hb (n + 1) hi
      rw [if_neg (Nat.succ_ne_zero n)] at hstep
      simp only [Nat.add_sub_cancel] at hstep
      rw [hstep, ih hlt, Finset.sum_range_succ (fun k => a.H k - a.F k) (n + 1)]
      ring
  exact fun i hi => ⟨(hn i hi).2.2.1, key i hi⟩

theorem C2_witness :
    0 ≤ zeroAsg.E 0 ∧
    zeroAsg.E 0 = zeroParams.initial_employees +
      ∑ k ∈ Finset.range (0 + 1), (zeroAsg.H k - zeroAsg.F k) :=
  C2_balance_telescoped zeroParams zeroAsg zero_feasible.1 zero_feasible.2.1
    0 Nat.zero_lt_one

/-- C3: every feasible assignment satisfies the budget constraint, which
bounds the sum of the hiring, firing, salary and overtime terms by
`budget`; the `UnmetDemand` penalty term is excluded from that budgeted
sum — the objective exceeds it by exactly the penalty component. -/
theorem C3_budget_constraint (p : Params) (a : Assignment)
    (h : feasible p a) :
    budgetCost p a ≤ p.budget ∧
    budgetCost p a = objective p a -
      ∑ i ∈ Finset.range p.months, (a.U i : ℚ) * p.penalty_cost := by
  obtain ⟨-, -, -, -, -, -, -, hbud⟩ := h
  refine ⟨hbud, ?_⟩
  unfold budgetCost objective
  rw [← Finset.sum_sub_distrib]
  exact Finset.sum_congr rfl fun i _ => by ring

theorem C3_witness :
    budgetCost zeroParams zeroAsg ≤ zeroParams.budget :=
  (C3_budget_constraint zeroParams zeroAsg zero_feasible).1

/-- C4: the objective of the minimization problem is exactly the sum over
all periods of the hiring, firing, salary and overtime terms plus the
penalty term `U[i]*penalty_cost` — the budgeted cost terms plus the
penalty, with no other terms. -/
theorem C4_objective_terms (p : Params) (a : Assignment) :
    objective p a =
      budgetCost p a + ∑ i ∈ Finset.range p.months, (a.U i : ℚ) * p.penalty_cost := by
  unfold budgetCost objective
  rw [← Finset.sum_add_distrib]

/-- C9: whenever `service_rate ≤ 1` (and demand is non-negative, as the
data model requires), any assignment with `U[i] ≥ 0` satisfying the
shortfall bound also satisfies the service constraint: the service-rate
constraint is logically redundant and never relaxes coverage below raw
demand. -/
theorem C9_service_redundant (p : Params) (a : Assignment) (i : ℕ)
    (hsr : p.service_rate ≤ 1) (hd : 0 ≤ demandAt p i)
    (_hU : 0 ≤ (a.U i : ℚ)) (hshort : unmetC p a i) :
    coverC p a i := by
  unfold unmetC at hshort
  unfold coverC
  have h1 : demandAt p i * p.service_rate ≤ demandAt p i := by
    calc demandAt p i * p.service_rate ≤ demandAt p i * 1 :=
          mul_le_mul_of_nonneg_left hsr hd
      _ = demandAt p i := mul_one _
  linarith

theorem C9_witness :
    coverC zeroParams zeroAsg 0 :=
  C9_service_redundant zeroParams zeroAsg 0 (by norm_num [zeroParams])
    (by norm_num [demandAt, zeroParams]) (by norm_num [zeroAsg])
    (by simp [unmetC, demandAt, zeroParams, zeroAsg])

/-- C8: with a positive effective salary cost and non-negative overtime
cost, the Scenario B constraint system admits no satisfying assignment —
the caps force `H = F = 0`, the balance forces `E = 10`, and the forced
headcount's salary cost alone already exceeds the zero budget. -/
theorem C8_scenarioB_infeasible (hc fc sc oc pc orate : ℚ)
    (hsc : 0 < sc) (hoc : 0 ≤ oc) :
    ¬ ∃ a : Assignment, feasible (scenarioB hc fc sc oc pc orate) a := by
  rintro ⟨a, hn, hb, -, hh, hf, -, -, hbud⟩
  have h01 : (0 : ℕ) < (scenarioB hc fc sc oc pc orate).months := Nat.zero_lt_one
  have hn0 := hn 0 h01
  have hH : a.H 0 = 0 := le_antisymm (hh 0 h01) hn0.1
  have hF : a.F 0 = 0 := le_antisymm (hf 0 h01) hn0.2.1
  have hb0 := hb 0 h01
  rw [if_pos rfl] at hb0
  have hE : a.E 0 = 10 := by rw [hb0, hH, hF]; simp [scenarioB]
  have hbud' : budgetCost (scenarioB hc fc sc oc pc orate) a ≤ 0 := hbud
  unfold budgetCost at hbud'
  simp only [scenarioB] at hbud'
  rw [Finset.sum_range_one, hH, hF, hE] at hbud'
  push_cast at hbud'
  have hO : (0 : ℚ) ≤ (a.O 0 : ℚ) := by exact_mod_cast hn0.2.2.2.1
  nlinarith [mul_nonneg hO hoc]

theorem C8_witness :
    (0 : ℚ) < 1000 ∧ (0 : ℚ) ≤ 75 ∧
    ¬ ∃ a : Assignment, feasible (scenarioB 1000 1000 1000 75 100 10) a :=
  ⟨by norm_num, by norm_num,
    C8_scenarioB_infeasible 1000 1000 1000 75 100 10 (by norm_num) (by norm_num)⟩

/-- A result dictionary is built exactly when the objective value is
defined, and then it is the record of src/Workforce.py:68-83; shared
characterization of the post-solve extraction. -/
theorem solve_eq_some_iff (p : Params) (out : SolverOutput) (r : SolveResult) :
    solve_workforce_planning p out = some r ↔
    ∃ v, objectiveValue p out = some v ∧
      r = { status := LpStatus out.status,
            totalCost := v - objectivePenalty p out,
            details := (List.range p.months).map fun i =>
              { month := i + 1, demandHours := demandAt p i,
                hired := safe_value (out.Hval i), fired := safe_value (out.Fval i),
                employees := safe_value (out.Eval i), overtime := safe_value (out.Oval i),
                unmetDemand := safe_value (out.Uval i) } } := by
  unfold solve_workforce_planning
  cases h : objectiveValue p out with
  | none => simp
  | some v => simp [eq_comm]

/-- Evaluation of the extraction at the all-zero run; shared by the
witnesses below. -/
theorem zero_solve_eq :
    solve_workforce_planning zeroParams zeroOut = some zeroResult := by
  rw [solve_eq_some_iff]
  refine ⟨0, ?_, ?_⟩
  · have hdef : objectiveDefined zeroParams zeroOut := by
      intro i hi
      simp [zeroParams, zeroOut]
    unfold objectiveValue
    rw [if_pos hdef]
    simp [zeroParams, zeroOut, Finset.sum_range_one]
  · simp [zeroResult, zeroParams, zeroOut, LpStatus, objectivePenalty, safe_value,
      demandAt, Finset.sum_range_one, List.range_succ]

/-- Evaluation of the extraction at the invalid-parameter run: the
negative hiring cost flows through unchecked and the solver's status is
reported. -/
theorem invalid_solve_eq :
    solve_workforce_planning invalidParams zeroOut = some zeroResult := by
  rw [solve_eq_some_iff]
  refine ⟨0, ?_, ?_⟩
  · have hdef : objectiveDefined invalidParams zeroOut := by
      intro i hi
      simp [invalidParams, zeroOut]
    unfold objectiveValue
    rw [if_pos hdef]
    simp [invalidParams, zeroOut, Finset.sum_range_one]
  · simp [zeroResult, invalidParams, zeroOut, LpStatus, objectivePenalty, safe_value,
      demandAt, Finset.sum_range_one, List.range_succ]

/-- C5: whenever a result is returned, its `Total Cost` is the objective
value minus the realized penalty component (computed from the
null-defaulted variable values), and hence equals the sum of the hiring,
firing, salary and overtime components only. -/
theorem C5_total_cost_reporting (p : Params) (out : SolverOutput) (r : SolveResult)
    (hr : solve_workforce_planning p out = some r) :
    (∀ v, objectiveValue p out = some v → r.totalCost = v - objectivePenalty p out) ∧
    r.totalCost = ∑ i ∈ Finset.range p.months,
      (safe_value (out.Hval i) * p.hiring_cost + safe_value (out.Fval i) * p.firing_cost +
       safe_value (out.Eval i) * p.effective_salary_cost +
       safe_value (out.Oval i) * p.overtime_cost) := by
  obtain ⟨v, hov, rfl⟩ := (solve_eq_some_iff p out r).mp hr
  constructor
  · intro w hw
    rw [hov] at hw
    rw [Option.some.inj hw]
  · show v - objectivePenalty p out = _
    have hv : v = ∑ i ∈ Finset.range p.months,
        ((out.Hval i).getD 0 * p.hiring_cost + (out.Fval i).getD 0 * p.firing_cost +
         (out.Eval i).getD 0 * p.effective_salary_cost +
         (out.Oval i).getD 0 * p.overtime_cost +
         (out.Uval i).getD 0 * p.penalty_cost) := by
      unfold objectiveValue at hov
      by_cases hall : objectiveDefined p out
      · rw [if_pos hall] at hov
        exact (Option.some.inj hov).symm
      · rw [if_neg hall] at hov
        cases hov
    rw [hv]
    unfold objectivePenalty safe_value
    rw [← Finset.sum_sub_distrib]
    exact Finset.sum_congr rfl fun i _ => by ring

theorem C5_witness :
    zeroResult.totalCost = ∑ i ∈ Finset.range zeroParams.months,
      (safe_value (zeroOut.Hval i) * zeroParams.hiring_cost +
       safe_value (zeroOut.Fval i) * zeroParams.firing_cost +
       safe_value (zeroOut.Eval i) * zeroParams.effective_salary_cost +
       safe_value (zeroOut.Oval i) * zeroParams.overtime_cost) :=
  (C5_total_cost_reporting zeroParams zeroOut zeroResult zero_solve_eq).2

/-- C6: at the UI's default (non-zero) costs, when the solver assigns no
value to the decision variables, the objective value is undefined and the
un-guarded subtraction on src/Workforce.py:70 fails, so no result
dictionary is built at all — the unassigned variables are not reported
as 0. -/
theorem C6_unassigned_result_lost :
    solve_workforce_planning defaultParams noneOut = none := by
  have hnd : ¬ objectiveDefined defaultParams noneOut := by
    intro h
    have h0 := (h 0 Nat.zero_lt_one).1
    norm_num [defaultParams, noneOut] at h0
  unfold solve_workforce_planning objectiveValue
  rw [if_neg hnd]

/-- C7 refuted: a parameter record with a negative hiring cost — an
input the spec's preconditions reject — is not rejected: the constraint
system is constructed (and satisfiable), and the extraction reports an
ordinary solver status, so the input reached the solver. -/
theorem C7_counterexample :
    invalidParams.hiring_cost < 0 ∧
    (solve_workforce_planning invalidParams zeroOut).map SolveResult.status =
      some "Optimal" ∧
    feasible invalidParams zeroAsg := by
  refine ⟨by norm_num [invalidParams], ?_, ?_⟩
  · rw [invalid_solve_eq]
    rfl
  · refine ⟨?_, ?_, ?_, ?_, ?_, ?_, ?_, ?_⟩ <;>
      simp [nonnegOk, balanceOk, coverOk, unmetOk, hireCapOk, fireCapOk, overtimeOk,
        budgetOk, coverC, unmetC, budgetCost, demandAt, invalidParams, zeroAsg,
        Nat.lt_one_iff]

/-- C7 amended: the solve operation performs no parameter validation —
for every parameter record, valid or not, the model is constructed and
any returned result carries the solver's status verbatim; no
InvalidParameters outcome exists. -/
theorem C7_no_validation (p : Params) (out : SolverOutput) (r : SolveResult)
    (hr : solve_workforce_planning p out = some r) :
    r.status = LpStatus out.status := by
  obtain ⟨v, -, rfl⟩ := (solve_eq_some_iff p out r).mp hr
  rfl

theorem C7_witness :
    zeroResult.status = LpStatus zeroOut.status :=
  C7_no_validation invalidParams zeroOut zeroResult invalid_solve_eq

/-- C10: whenever a result is returned, its `Details` list has exactly
`months` entries, and the entry at index `i` has `Month` equal to `i+1`
and `Demand (hours)` equal to the input demand for month `i`, unchanged. -/
theorem C10_details_shape (p : Params) (out : SolverOutput) (r : SolveResult)
    (hr : solve_workforce_planning p out = some r) :
    r.details.length = p.months ∧
    ∀ i < p.months, ∃ d : PeriodDetail, r.details[i]? = some d ∧
      d.month = i + 1 ∧ d.demandHours = demandAt p i := by
  obtain ⟨v, -, rfl⟩ := (solve_eq_some_iff p out r).mp hr
  constructor
  · simp
  · intro i hi
    refine ⟨{ month := i + 1, demandHours := demandAt p i,
              hired := safe_value (out.Hval i), fired := safe_value (out.Fval i),
              employees := safe_value (out.Eval i), overtime := safe_value (out.Oval i),
              unmetDemand := safe_value (out.Uval i) }, ?_, rfl, rfl⟩
    simp [List.getElem?_map, List.getElem?_range, hi]

theorem C10_witness :
    zeroResult.details.length = zeroParams.months :=
  (C10_details_shape zeroParams zeroOut zeroResult zero_solve_eq).1

end Workforce
